import Mathlib

/-!
Verification of the Council of Elders orchestrator core.

The definitions below are a shallow embedding of the TypeScript source:
`src/council-client.ts` (CouncilClient), the CouncilService
(`queryWithConsensus`, `filterByTimeLimit`, `calculateMetadata`,
`synthesizeResponses`), `src/config.ts` (`getModelId`, `getSystemPrompt`),
`src/services/PricingService.ts` and `src/openrouter.ts` (`fetchWithRetry`).

Network I/O is modelled by an oracle (`Backend`) giving, for each
(model, messages) request, the settled outcome of the underlying
`withRetry(generateText(...))` call together with the measured wall-clock
latency.  `CouncilClient.queryModel` wraps its whole body in try/catch and
materialises every failure as an `error` slot, so its embedding is a total
function of the oracle outcome.  The completion order of the concurrent
round-1 requests (observable only through the first-N race) is modelled by an
explicit `settleOrder : List Nat` parameter listing promise indices in the
order in which they settle.

JavaScript truthiness tests on optional strings and numbers (`||`,
`if (x)`) are embedded by the explicit `jsOrStr` / `jsTruthyStr` /
`jsTruthyNat` / `jsTruthyQ` helpers so that edge cases (empty string, zero)
are kept exactly as the source evaluates them.
-/

/-- Message role of the chat-completion wire protocol. -/
inductive Role
  | system
  | user
  | assistant
deriving DecidableEq, Repr

/-- Chat message: a role and an opaque text body. -/
structure Message where
  role : Role
  content : String
deriving DecidableEq, Repr

/-- Citation record (`UrlCitation` in council-client.ts). -/
structure UrlCitation where
  url : String
  title : String
  content : Option String
  start_index : Nat
  end_index : Nat
deriving DecidableEq, Repr

/-- The optional `meta` block of a ModelResponse (council-client.ts). -/
structure ResponseMeta where
  promptTokens : Option Nat
  completionTokens : Option Nat
  totalTokens : Option Nat
  latencyMs : Option Nat
  estimatedCost : Option ℚ
deriving DecidableEq, Repr

/-- ModelResponse from council-client.ts: success carries `content`,
failure carries `error`; `meta` is present when the backend reported usage. -/
structure ModelResponse where
  model : String
  content : Option String
  error : Option String
  citations : Option (List UrlCitation)
  meta : Option ResponseMeta
deriving DecidableEq, Repr

/-- Default used wherever the embedding reads a list slot out of range
(the source never does on the executed paths). -/
def defaultResponse : ModelResponse :=
  { model := "", content := none, error := none, citations := none, meta := none }

instance : Inhabited ModelResponse := ⟨defaultResponse⟩

/-- JavaScript truthiness of an optional string: `undefined` and `""` are
falsy, every other string is truthy. -/
def jsTruthyStr : Option String → Bool
  | none => false
  | some s => decide (s ≠ "")

/-- JavaScript `x || d` on an optional string. -/
def jsOrStr (o : Option String) (d : String) : String :=
  match o with
  | some s => if s = "" then d else s
  | none => d

/-- JavaScript truthiness of an optional natural number: `undefined` and `0`
are falsy. -/
def jsTruthyNat : Option Nat → Bool
  | none => false
  | some n => decide (n ≠ 0)

/-- JavaScript truthiness of an optional rational: `undefined` and `0` are
falsy. -/
def jsTruthyQ : Option ℚ → Bool
  | none => false
  | some q => decide (q ≠ 0)

/-- JavaScript `a.includes(b)` on strings: `b` occurs as a contiguous
substring of `a`. -/
def jsIncludes (hay needle : String) : Bool :=
  decide (needle.toList <:+: hay.toList)

/-- Token usage reported by the backend (`result.usage`). -/
structure Usage where
  promptTokens : Nat
  completionTokens : Nat
  totalTokens : Nat
deriving DecidableEq, Repr

/-- Successful result of `generateText`: the text plus optional usage. -/
structure GenResult where
  text : String
  usage : Option Usage
deriving DecidableEq, Repr

/-- Settled outcome of one `withRetry(generateText(...))` call: either the
decoded result or the thrown error message, together with the wall-clock
latency measured around the call. -/
structure BackendOutcome where
  result : Except String GenResult
  latencyMs : Nat
deriving Repr

/-- Oracle for the network: the settled outcome of the per-model request as
a function of the model id and the message list sent. -/
def Backend : Type := String → List Message → BackendOutcome

/-- The built-in `costPer1kTokens` table of `CouncilClient.estimateCost`,
in declaration order (object-literal string keys preserve insertion order). -/
def costPer1kTokens : List (String × ℚ) :=
  [ ("gpt-4o", 0.005)
  , ("gpt-4o-mini", 0.0002)
  , ("claude-3.5-sonnet", 0.003)
  , ("claude-3-haiku", 0.00025)
  , ("perplexity/sonar-pro", 0.003)
  , ("perplexity/sonar", 0.001)
  , ("deepseek/deepseek-r1", 0.001)
  , ("google/gemini-2.0-flash-exp:free", 0) ]

/-- Rate lookup of `CouncilClient.estimateCost`:
`Object.keys(costPer1kTokens).find(key => model.includes(key))`. -/
def estimateCostKey (model : String) : Option (String × ℚ) :=
  costPer1kTokens.find? (fun kv => jsIncludes model kv.1)

/-- CouncilClient.estimateCost: `(usage.totalTokens / 1000) * rate` with the
first substring-matching table key, else the default 0.002 rate. -/
def estimateCost (model : String) (totalTokens : Nat) : ℚ :=
  let rate : ℚ :=
    match estimateCostKey model with
    | some kv => kv.2
    | none => 0.002
  ((totalTokens : ℚ) / 1000) * rate

/-- CouncilClient.queryModel: wraps the backend call in try/catch; success
yields `content` (plus `meta` when usage was reported, with the measured
latency and the estimated cost), failure is materialised as an `error` slot.
The function is total: it never propagates an exception. -/
def queryModel (backend : Backend) (modelId : String) (messages : List Message) :
    ModelResponse :=
  let outcome := backend modelId messages
  match outcome.result with
  | Except.ok r =>
      { model := modelId
        content := some r.text
        error := none
        citations := none
        meta := r.usage.map (fun u =>
          { promptTokens := some u.promptTokens
            completionTokens := some u.completionTokens
            totalTokens := some u.totalTokens
            latencyMs := some outcome.latencyMs
            estimatedCost := some (estimateCost modelId u.totalTokens) }) }
  | Except.error msg =>
      { model := modelId
        content := none
        error := some msg
        citations := none
        meta := none }

/-- The sentinel error string of the first-N race (exact contract text). -/
def firstNSentinel : String := "Response not needed (first-n limit reached)"

/-- The placeholder slot written for a model whose request was not among the
first N to settle. -/
def sentinelSlot (modelId : String) : ModelResponse :=
  { model := modelId
    content := none
    error := some firstNSentinel
    citations := none
    meta := none }

/-- CouncilClient.getFirstNResponses.  `resps` are the settled values of the
per-model promises (queryModel never rejects, so every promise resolves);
`settleOrder` lists promise indices in settlement order.  The first `n`
settlers are recorded in `completed` / `results`; the aggregate is then
assembled in input order, looking each completed slot up by model id
(`results.find(r => r.model === modelIds[i])`, skipping the push when the
find fails) and filling the rest with the sentinel slot. -/
def getFirstNResponses (resps : List ModelResponse) (modelIds : List String)
    (n : Nat) (settleOrder : List Nat) : List ModelResponse :=
  let completed := settleOrder.take n
  let results := completed.map (fun i => resps.getD i defaultResponse)
  (List.range modelIds.length).filterMap (fun i =>
    if i ∈ completed then
      results.find? (fun r => r.model == modelIds.getD i "")
    else
      some (sentinelSlot (modelIds.getD i "")))

/-- CouncilClient.queryMultipleModels: fan the messages out to every model;
when `options.firstN` is truthy and smaller than the model count, race to
the first N settlements, otherwise wait for all (`Promise.all`). -/
def queryMultipleModels (backend : Backend) (settleOrder : List Nat)
    (modelIds : List String) (messages : List Message) (firstN : Option Nat) :
    List ModelResponse :=
  let resps := modelIds.map (fun modelId => queryModel backend modelId messages)
  match firstN with
  | some n =>
      if n ≠ 0 ∧ n < modelIds.length then
        getFirstNResponses resps modelIds n settleOrder
      else resps
  | none => resps

/-- An apostrophe, kept out of string literals. -/
def apos : String := String.singleton (Char.ofNat 39)

/-- CouncilClient.buildConsensusPrompt: fixed header, one section per peer
whose model id differs from the current model and whose error is falsy (in
the order of `allResponses`), fixed footer.  `ownResponse` is accepted but
unused, exactly as in the source.  A peer with absent content renders the
JavaScript interpolation of `undefined`. -/
def buildConsensusPrompt (currentModel : String) (ownResponse : ModelResponse)
    (allResponses : List ModelResponse) : String :=
  let header := "Consider your peers" ++ apos ++
    " views and revise your response if needed:\n\n"
  let afterPeers := allResponses.foldl (fun prompt response =>
    if response.model ≠ currentModel ∧ jsTruthyStr response.error = false then
      prompt ++ ("**" ++ response.model ++ "**:\n" ++
        response.content.getD "undefined" ++ "\n\n")
    else prompt) header
  afterPeers ++
    "Based on these perspectives, would you like to revise or expand your answer?"

/-- The four-message revision request sent to a model in rounds 2..R. -/
def consensusMessages (systemPrompt initialPrompt : String)
    (previousResponse : ModelResponse) (modelId : String)
    (previousRound : List ModelResponse) : List Message :=
  [ ⟨Role.system, systemPrompt⟩
  , ⟨Role.user, initialPrompt⟩
  , ⟨Role.assistant, previousResponse.content.getD ""⟩
  , ⟨Role.user, buildConsensusPrompt modelId previousResponse previousRound⟩ ]

/-- One consensus round k ≥ 2 of CouncilClient.runConsensusRounds: per model
index, an errored previous slot is returned verbatim without querying the
backend; otherwise the revision request is sent. -/
def consensusStep (backend : Backend) (modelIds : List String)
    (initialPrompt systemPrompt : String) (prev : List ModelResponse) :
    List ModelResponse :=
  modelIds.enum.map (fun p =>
    let i := p.1
    let modelId := p.2
    let previousResponse := prev.getD i defaultResponse
    if jsTruthyStr previousResponse.error then previousResponse
    else
      queryModel backend modelId
        (consensusMessages systemPrompt initialPrompt previousResponse modelId prev))

/-- Rounds 2..R of the consensus loop, each produced from its predecessor. -/
def consensusRoundsFrom (backend : Backend) (modelIds : List String)
    (initialPrompt systemPrompt : String) :
    Nat → List ModelResponse → List (List ModelResponse)
  | 0, _ => []
  | k + 1, prev =>
      let next := consensusStep backend modelIds initialPrompt systemPrompt prev
      next :: consensusRoundsFrom backend modelIds initialPrompt systemPrompt k next

/-- The round-1 message list of runConsensusRounds. -/
def initialMessages (systemPrompt initialPrompt : String) : List Message :=
  [⟨Role.system, systemPrompt⟩, ⟨Role.user, initialPrompt⟩]

/-- CouncilClient.runConsensusRounds: round 1 is a plain fan-out (optionally
raced via first-N); each later round is `consensusStep` of its predecessor.
Progress reporting has no effect on the returned transcript and is elided. -/
def runConsensusRounds (backend : Backend) (settleOrder : List Nat)
    (modelIds : List String) (initialPrompt systemPrompt : String)
    (rounds : Nat) (firstN : Option Nat) : List (List ModelResponse) :=
  let round1 := queryMultipleModels backend settleOrder modelIds
    (initialMessages systemPrompt initialPrompt) firstN
  round1 :: consensusRoundsFrom backend modelIds initialPrompt systemPrompt
    (rounds - 1) round1

/-- ModelConfig from config.ts / types.ts: a bare model id string or a
record with a model id and an optional per-model system prompt. -/
inductive ModelConfig
  | str (id : String)
  | obj (model : String) (system : Option String)
deriving DecidableEq, Repr

/-- config.ts getModelId. -/
def getModelId : ModelConfig → String
  | ModelConfig.str s => s
  | ModelConfig.obj m _ => m

/-- The hard-coded default system prompt of config.ts. -/
def defaultSystemPrompt : String :=
  "You are a respected member of the Council of Elders. Provide clear, expert guidance."

/-- config.ts getSystemPrompt: the per-model override when present (and
truthy), else `globalSystem || defaultSystemPrompt`. -/
def getSystemPrompt (model : ModelConfig) (globalSystem : Option String) : String :=
  match model with
  | ModelConfig.obj _ (some s) =>
      if s ≠ "" then s else jsOrStr globalSystem defaultSystemPrompt
  | _ => jsOrStr globalSystem defaultSystemPrompt

/-- The `defaults` block of a CouncilConfig (types.ts), restricted to the
fields the orchestrator reads; presentation-only fields are omitted. -/
structure CouncilDefaults where
  temperature : Option ℚ
  firstN : Option Nat
  single : Option Bool
  timeLimit : Option ℚ
deriving DecidableEq, Repr

/-- CouncilConfig (types.ts), restricted to the fields the orchestrator
reads. -/
structure CouncilConfig where
  models : List ModelConfig
  system : Option String
  synthesizer : Option ModelConfig
  rounds : Option Nat
  defaults : Option CouncilDefaults
deriving DecidableEq, Repr

/-- `config.rounds || 1` (zero is falsy). -/
def councilRounds (config : CouncilConfig) : Nat :=
  match config.rounds with
  | some r => if r = 0 then 1 else r
  | none => 1

/-- `config.defaults?.firstN`. -/
def councilFirstN (config : CouncilConfig) : Option Nat :=
  match config.defaults with
  | some d => d.firstN
  | none => none

/-- `config.defaults?.timeLimit` (seconds). -/
def councilTimeLimit (config : CouncilConfig) : Option ℚ :=
  match config.defaults with
  | some d => d.timeLimit
  | none => none

/-- `config.defaults?.single` with undefined falsy. -/
def councilSingle (config : CouncilConfig) : Bool :=
  match config.defaults with
  | some d => d.single.getD false
  | none => false

/-- The latency value of a response as the time-limit filter reads it:
`response.meta?.latencyMs` under JavaScript truthiness, so an absent meta,
an absent latency and a zero latency all read as "no latency". -/
def latencyTruthy (meta : Option ResponseMeta) : Option Nat :=
  match meta with
  | some m =>
      match m.latencyMs with
      | some l => if l ≠ 0 then some l else none
      | none => none
  | none => none

/-- CouncilService.filterByTimeLimit: keep a response with falsy error and
truthy latency iff the latency is within the limit; keep everything else
(error responses, responses without usable latency).  Dropped responses are
removed from the list, not replaced. -/
def filterByTimeLimit (responses : List ModelResponse) (timeLimitMs : ℚ) :
    List ModelResponse :=
  responses.filter (fun response =>
    if jsTruthyStr response.error = false then
      match latencyTruthy response.meta with
      | some l => decide ((l : ℚ) ≤ timeLimitMs)
      | none => true
    else true)

/-- Accumulator of CouncilService.calculateMetadata. -/
structure MetaAccum where
  totalCost : ℚ
  totalTokens : Nat
  totalLatency : Nat
  responseCount : Nat
deriving DecidableEq, Repr

/-- One body iteration of calculateMetadata: responses without meta are
skipped; a truthy estimatedCost is added, else a truthy totalTokens is
priced through the pricing service; tokens and latency accumulate with
`|| 0`, and the response counts toward the latency average. -/
def metaStep (pricing : String → Nat → ℚ) (acc : MetaAccum)
    (response : ModelResponse) : MetaAccum :=
  match response.meta with
  | none => acc
  | some m =>
      let costAdd : ℚ :=
        if jsTruthyQ m.estimatedCost then m.estimatedCost.getD 0
        else if jsTruthyNat m.totalTokens then
          pricing response.model (m.totalTokens.getD 0)
        else 0
      { totalCost := acc.totalCost + costAdd
        totalTokens := acc.totalTokens + m.totalTokens.getD 0
        totalLatency := acc.totalLatency + m.latencyMs.getD 0
        responseCount := acc.responseCount + 1 }

/-- The metadata block of a ConsensusResponse. -/
structure ConsensusMetadata where
  totalCost : ℚ
  totalTokens : Nat
  averageLatency : ℚ
  modelCount : Nat
deriving DecidableEq, Repr

/-- CouncilService.calculateMetadata: fold over every response of every
round (synthesis is not passed in); averageLatency is the plain division
`totalLatency / responseCount` (0 when no response carries meta);
modelCount is `allRounds[0]?.length || 0`. -/
def calculateMetadata (pricing : String → Nat → ℚ)
    (allRounds : List (List ModelResponse)) : ConsensusMetadata :=
  let acc := allRounds.flatten.foldl (metaStep pricing) ⟨0, 0, 0, 0⟩
  { totalCost := acc.totalCost
    totalTokens := acc.totalTokens
    averageLatency :=
      if acc.responseCount > 0 then (acc.totalLatency : ℚ) / acc.responseCount else 0
    modelCount := (allRounds.headD []).length }

/-- `config.synthesizer || 'openai/gpt-4o-mini'` (an empty-string synthesizer
id is falsy). -/
def chooseSynthesizer (synthesizer : Option ModelConfig) : ModelConfig :=
  match synthesizer with
  | some (ModelConfig.str s) =>
      if s = "" then ModelConfig.str "openai/gpt-4o-mini" else ModelConfig.str s
  | some m => m
  | none => ModelConfig.str "openai/gpt-4o-mini"

/-- The per-response section of the multi-round synthesis prompt. -/
def synthesisRoundSection (roundIndex : Nat) (roundResponses : List ModelResponse) :
    String :=
  "=== Round " ++ toString (roundIndex + 1) ++ " ===\n" ++
  String.join (roundResponses.enum.map (fun q =>
    if jsTruthyStr q.2.error = false ∧ jsTruthyStr q.2.content then
      "\nElder " ++ toString (q.1 + 1) ++ ":\n" ++ q.2.content.getD "" ++ "\n"
    else "")) ++ "\n"

/-- CouncilService.synthesizeResponses: with no successful final-round
response, an error ModelResponse is returned without any backend call;
otherwise the compound prompt is built (full discussion when more than one
round, expert perspectives otherwise) and the synthesizer model is queried
once. -/
def synthesizeResponses (backend : Backend) (originalPrompt : String)
    (allRounds : List (List ModelResponse)) (config : CouncilConfig) :
    ModelResponse :=
  let synthesizerModel := chooseSynthesizer config.synthesizer
  let modelId := getModelId synthesizerModel
  let finalResponses := allRounds.getLastD []
  let successfulResponses := finalResponses.filter (fun r =>
    jsTruthyStr r.error = false ∧ jsTruthyStr r.content)
  if successfulResponses.length = 0 then
    { model := modelId
      content := none
      error := some "No successful responses to synthesize"
      citations := none
      meta := none }
  else
    let base := "You are tasked with providing a single, unified answer to a question based on a council discussion.\n\nOriginal Question: \"" ++
      originalPrompt ++ "\"\n\n"
    let body :=
      if allRounds.length > 1 then
        "Full Council Discussion (" ++ toString allRounds.length ++ " rounds):\n\n" ++
        String.join (allRounds.enum.map (fun p => synthesisRoundSection p.1 p.2)) ++
        "\nBased on this full discussion, including how perspectives evolved across rounds, provide a comprehensive synthesis."
      else
        "Expert Perspectives:\n" ++
        String.join (successfulResponses.enum.map (fun q =>
          "\nPerspective " ++ toString (q.1 + 1) ++ ":\n" ++ q.2.content.getD "" ++ "\n")) ++
        "\nBased on these perspectives, provide a direct, comprehensive answer."
    let synthesisPrompt := base ++ body ++
      "\n\nDo not mention the council, multiple perspectives, or synthesis process. Simply answer the question as if you are providing the definitive response."
    let messages : List Message :=
      [ ⟨Role.system, "You are an expert synthesizer. Provide clear, direct answers based on the information given. Never mention the synthesis process or multiple sources."⟩
      , ⟨Role.user, synthesisPrompt⟩ ]
    queryModel backend modelId messages

/-- ConsensusResponse (types.ts); queryWithConsensus always computes the
metadata block. -/
structure ConsensusResponse where
  rounds : List (List ModelResponse)
  synthesis : Option ModelResponse
  metadata : ConsensusMetadata
deriving DecidableEq, Repr

/-- CouncilService.queryWithConsensus: run the consensus rounds with the
council system prompt `config.system || ''`; when `defaults.timeLimit` is
truthy, map the time-limit filter over the finished rounds; synthesize from
the filtered rounds when `defaults.single` is set; metadata is computed from
the filtered rounds only. -/
def queryWithConsensus (backend : Backend) (pricing : String → Nat → ℚ)
    (settleOrder : List Nat) (prompt : String) (config : CouncilConfig) :
    ConsensusResponse :=
  let rounds := councilRounds config
  let modelIds := config.models.map getModelId
  let allRounds := runConsensusRounds backend settleOrder modelIds prompt
    (jsOrStr config.system "") rounds (councilFirstN config)
  let filteredRounds :=
    if jsTruthyQ (councilTimeLimit config) then
      allRounds.map (fun round =>
        filterByTimeLimit round ((councilTimeLimit config).getD 0 * 1000))
    else allRounds
  let synthesis :=
    if councilSingle config then
      some (synthesizeResponses backend prompt filteredRounds config)
    else none
  { rounds := filteredRounds
    synthesis := synthesis
    metadata := calculateMetadata pricing filteredRounds }

/-- CouncilService.query (single round): fan out with the system message
`config.system || 'You are a helpful AI assistant.'`, then apply the
time-limit filter when configured. -/
def councilQuery (backend : Backend) (settleOrder : List Nat) (prompt : String)
    (config : CouncilConfig) : List ModelResponse :=
  let modelIds := config.models.map getModelId
  let messages : List Message :=
    [ ⟨Role.system, jsOrStr config.system "You are a helpful AI assistant."⟩
    , ⟨Role.user, prompt⟩ ]
  let responses := queryMultipleModels backend settleOrder modelIds messages
    (councilFirstN config)
  if jsTruthyQ (councilTimeLimit config) then
    filterByTimeLimit responses ((councilTimeLimit config).getD 0 * 1000)
  else responses

/-- Pricing rule base of PricingService: ordered exact-fragment table,
ordered pattern table, default rate. -/
structure PricingConfig where
  defaultRate : ℚ
  models : List (String × ℚ)
  patterns : List (String × ℚ)
deriving DecidableEq, Repr

/-- The built-in fallback pricing of PricingService. -/
def builtinPricing : PricingConfig :=
  { defaultRate := 0.002
    models := []
    patterns := [("free", 0), ("turbo", 0.0005), ("mini", 0.0002)] }

/-- PricingService.findRate: first substring match in `models`, then in
`patterns`, then the default rate; matching is on the lower-cased model id. -/
def findRate (pricing : PricingConfig) (modelId : String) : ℚ :=
  let modelLower := modelId.toLower
  match pricing.models.find? (fun kv => jsIncludes modelLower kv.1) with
  | some kv => kv.2
  | none =>
      match pricing.patterns.find? (fun kv => jsIncludes modelLower kv.1) with
      | some kv => kv.2
      | none => pricing.defaultRate

/-- PricingService.calculate: `(totalTokens / 1000) * rate`. -/
def pricingCalculate (pricing : PricingConfig) (modelId : String)
    (totalTokens : Nat) : ℚ :=
  ((totalTokens : ℚ) / 1000) * findRate pricing modelId

/-- Outcome of one `fetch` attempt inside OpenRouterClient.fetchWithRetry:
either a response (status plus the parsed `retry-after` header when present)
or a thrown error (`TypeError` for transport failures). -/
inductive FetchOutcome
  | resp (status : Nat) (retryAfter : Option Nat)
  | thrown (isTypeError : Bool) (msg : String)
deriving DecidableEq, Repr

/-- The errors a single fetch attempt can record as `lastError` inside
fetchWithRetry, tagged by class (errors.ts); the RateLimitError carries the
retry-after hint. -/
inductive AttemptError
  | rateLimit (msg : String) (retryAfter : Option Nat)
  | typeError (msg : String)
  | otherError (msg : String)
deriving DecidableEq, Repr

/-- The `.message` of an attempt error. -/
def AttemptError.message : AttemptError → String
  | AttemptError.rateLimit m _ => m
  | AttemptError.typeError m => m
  | AttemptError.otherError m => m

/-- The JavaScript error values fetchWithRetry can throw to its caller. -/
inductive JsError
  | rateLimit (msg : String) (retryAfter : Option Nat)
  | network (msg : String) (cause : Option AttemptError)
deriving DecidableEq, Repr

/-- What fetchWithRetry ends with: the returned response, or the error it
throws to its caller. -/
inductive FetchResult
  | ok (status : Nat) (retryAfter : Option Nat)
  | failed (e : JsError)
deriving DecidableEq, Repr

/-- The `lastError?.message` interpolation of the final NetworkError. -/
def lastErrorMessage : Option AttemptError → String
  | some e => e.message
  | none => "undefined"

/-- The retry loop of OpenRouterClient.fetchWithRetry, one list element per
`fetch` attempt, with `attempt` the loop counter and the performed backoff
sleeps (ms) traced in order.  On 429 the delay honors the retry-after header
in seconds, else `initialRetryDelay * 2^attempt`; on the last attempt the
constructed RateLimitError is thrown inside the try block, so the
surrounding catch records it as `lastError` and the loop falls through to
the final NetworkError.  A 5xx below the retry budget backs off and
retries; any other response is returned.  A thrown TypeError below the
budget backs off; other thrown errors advance the loop without sleeping. -/
def fetchWithRetryGo (retries : Nat) :
    List FetchOutcome → Nat → Option AttemptError → List Nat → FetchResult × List Nat
  | [], _, lastError, sleeps =>
      ( FetchResult.failed (JsError.network
          ("Failed after " ++ toString (retries + 1) ++ " attempts: " ++
            lastErrorMessage lastError) lastError)
      , sleeps.reverse )
  | o :: rest, attempt, lastError, sleeps =>
      match o with
      | FetchOutcome.resp status retryAfter =>
          if status = 429 then
            let delay := match retryAfter with
              | some s => s * 1000
              | none => 1000 * 2 ^ attempt
            if attempt < retries then
              fetchWithRetryGo retries rest (attempt + 1) lastError (delay :: sleeps)
            else
              fetchWithRetryGo retries rest (attempt + 1)
                (some (AttemptError.rateLimit "Rate limit exceeded" retryAfter)) sleeps
          else if 500 ≤ status ∧ attempt < retries then
            fetchWithRetryGo retries rest (attempt + 1) lastError
              ((1000 * 2 ^ attempt) :: sleeps)
          else (FetchResult.ok status retryAfter, sleeps.reverse)
      | FetchOutcome.thrown isTypeError msg =>
          let e := if isTypeError then AttemptError.typeError msg
            else AttemptError.otherError msg
          if attempt < retries ∧ isTypeError then
            fetchWithRetryGo retries rest (attempt + 1) (some e)
              ((1000 * 2 ^ attempt) :: sleeps)
          else fetchWithRetryGo retries rest (attempt + 1) (some e) sleeps

/-- OpenRouterClient.fetchWithRetry with the default budget
`maxRetries = 3`: at most `retries + 1` fetch attempts are consumed from the
outcome oracle. -/
def fetchWithRetry (outcomes : Nat → FetchOutcome) (retries : Nat := 3) :
    FetchResult × List Nat :=
  fetchWithRetryGo retries ((List.range (retries + 1)).map outcomes) 0 none []

/-- Spec-side rendering of the peer sections of the consensus prompt,
following the claim wording: one section per peer index j ≠ i whose error is
absent, in the order of the responses vector. -/
def specPeerSections (i : Nat) : Nat → List ModelResponse → String
  | _, [] => ""
  | j, r :: rest =>
      (if j ≠ i ∧ r.error = none then
        "**" ++ r.model ++ "**:\n" ++ r.content.getD "undefined" ++ "\n\n"
      else "") ++ specPeerSections i (j + 1) rest

/-- Spec-side consensus prompt, following the claim wording: fixed header,
peer sections for j ≠ i without error, fixed footer. -/
def specConsensusPrompt (i : Nat) (responses : List ModelResponse) : String :=
  "Consider your peers" ++ apos ++ " views and revise your response if needed:\n\n" ++
  specPeerSections i 0 responses ++
  "Based on these perspectives, would you like to revise or expand your answer?"

/-- Cost contribution of one response as calculateMetadata accumulates it:
the truthy estimatedCost, else the pricing service on a truthy totalTokens,
else 0 (responses without meta contribute nothing). -/
def specCostContribution (pricing : String → Nat → ℚ) (r : ModelResponse) : ℚ :=
  match r.meta with
  | none => 0
  | some m =>
      if jsTruthyQ m.estimatedCost then m.estimatedCost.getD 0
      else if jsTruthyNat m.totalTokens then pricing r.model (m.totalTokens.getD 0)
      else 0

/-- Token contribution of one response (`meta.totalTokens || 0` when meta is
present). -/
def specTokensOf (r : ModelResponse) : Nat :=
  match r.meta with
  | none => 0
  | some m => m.totalTokens.getD 0

/-- Latency contribution of one response (`meta.latencyMs || 0` when meta is
present). -/
def specLatencyOf (r : ModelResponse) : Nat :=
  match r.meta with
  | none => 0
  | some m => m.latencyMs.getD 0

/-- Whether a response counts toward the latency average (it carries meta). -/
def specMetaCount (r : ModelResponse) : Nat :=
  match r.meta with
  | none => 0
  | some _ => 1

/-- The total cost exactly as claim C8 words it: summed over all responses
in all rounds AND the synthesis response, taking `meta.estimatedCost` when
present, else the pricing estimator on `meta.totalTokens` when present,
else 0. -/
def specClaimTotalCost (pricing : String → Nat → ℚ) (resp : ConsensusResponse) : ℚ :=
  ((resp.rounds.flatten ++ resp.synthesis.toList).map (fun r =>
    match r.meta with
    | none => 0
    | some m =>
        match m.estimatedCost with
        | some c => c
        | none =>
            match m.totalTokens with
            | some t => pricing r.model t
            | none => 0)).sum

/-- Backend whose single model succeeds with latency 2000 ms (for the
time-limit counterexample on C1). -/
def c1Backend : Backend := fun _ _ =>
  { result := Except.ok { text := "T", usage := some ⟨1, 1, 2⟩ }, latencyMs := 2000 }

/-- One-model council with a 1-second time limit. -/
def c1Config : CouncilConfig :=
  { models := [ModelConfig.str "m"]
    system := none
    synthesizer := none
    rounds := none
    defaults := some { temperature := none, firstN := none, single := none
                       timeLimit := some 1 } }

/-- Backend for the C4 counterexample: model "b" is slow (900 ms), "a" is
fast (100 ms); the response text records whether the request prompt
contained a "**b**" peer section, making the revision context observable. -/
def c4Backend : Backend := fun model messages =>
  { result := Except.ok
      { text := if messages.any (fun msg => jsIncludes msg.content "**b**")
          then "SAW_B" else "NO_B"
        usage := some ⟨1, 1, 2⟩ }
    latencyMs := if model = "b" then 900 else 100 }

/-- Two-model, two-round council with a 0.5-second time limit. -/
def c4Config : CouncilConfig :=
  { models := [ModelConfig.str "a", ModelConfig.str "b"]
    system := none
    synthesizer := none
    rounds := some 2
    defaults := some { temperature := none, firstN := none, single := none
                       timeLimit := some (1 / 2) } }

/-- Backend for the C8 counterexample: every request succeeds with 30 total
tokens and 100 ms latency, so every response (the synthesis included)
carries an estimated cost. -/
def c8Backend : Backend := fun _ _ =>
  { result := Except.ok { text := "T", usage := some ⟨10, 20, 30⟩ }, latencyMs := 100 }

/-- One-model council with synthesis enabled. -/
def c8Config : CouncilConfig :=
  { models := [ModelConfig.str "m"]
    system := none
    synthesizer := none
    rounds := none
    defaults := some { temperature := none, firstN := none, single := some true
                       timeLimit := none } }

/-- Backend for the C3 witness: model "b" fails with "boom", the rest
succeed. -/
def c3Backend : Backend := fun model _ =>
  if model = "b" then { result := Except.error "boom", latencyMs := 50 }
  else { result := Except.ok { text := "A", usage := none }, latencyMs := 50 }

/-- Backend for the C2 witness: every model answers with its own tag. -/
def c2Backend : Backend := fun model _ =>
  { result := Except.ok { text := "R-" ++ model, usage := none }, latencyMs := 10 }

/-- Concrete three-member council responses for the C5 witness: the third
member errored. -/
def c5Responses : List ModelResponse :=
  [ { model := "a", content := some "Xa", error := none, citations := none, meta := none }
  , { model := "b", content := some "Xb", error := none, citations := none, meta := none }
  , { model := "c", content := none, error := some "boom", citations := none, meta := none } ]

/-- A backend whose every request fails. -/
def failingBackend : Backend :=
  fun _ _ => { result := Except.error "boom", latencyMs := 0 }

/-- A backend that echoes the system message it was sent back as the
response text, making the system prompt used for a query observable in the
transcript. -/
def echoSystemBackend : Backend :=
  fun _ messages =>
    { result := Except.ok
        { text := (messages.headD ⟨Role.user, ""⟩).content, usage := none }
      latencyMs := 0 }

/-- A council whose single model carries a per-model system-prompt override
while the council also sets a system prompt. -/
def overrideConfig : CouncilConfig :=
  { models := [ModelConfig.obj "m" (some "OVERRIDE")]
    system := some "COUNCIL"
    synthesizer := none
    rounds := none
    defaults := none }

/-- The key "gpt-4o" is a substring of the key "gpt-4o-mini", so any model id
containing the latter contains the former. -/
theorem jsIncludes_gpt4o_of_mini (m : String)
    (h : jsIncludes m "gpt-4o-mini" = true) : jsIncludes m "gpt-4o" = true := by
  unfold jsIncludes at h ⊢
  exact decide_eq_true (List.IsInfix.trans (by decide) (of_decide_eq_true h))

/-- Claim C10: `CouncilClient.estimateCost` scans its rate table in
declaration order taking the first key that is a substring of the model id;
"gpt-4o" precedes "gpt-4o-mini" and is a substring of it, so every model id
containing "gpt-4o-mini" is billed at the 0.005 "gpt-4o" rate, and the
declared 0.0002 "gpt-4o-mini" entry is never selected for any input. -/
theorem claim_C10_mini_rate_shadowed (model : String) (totalTokens : Nat) :
    (jsIncludes model "gpt-4o-mini" = true →
      estimateCost model totalTokens = ((totalTokens : ℚ) / 1000) * 0.005) ∧
    estimateCostKey model ≠ some ("gpt-4o-mini", 0.0002) := by
  constructor
  · intro h
    have h4o := jsIncludes_gpt4o_of_mini model h
    have hkey : estimateCostKey model = some ("gpt-4o", 0.005) := by
      unfold estimateCostKey costPer1kTokens
      exact List.find?_cons_of_pos _ h4o
    unfold estimateCost
    rw [hkey]
  · intro hk
    have hp : jsIncludes model "gpt-4o-mini" = true := by
      have := List.find?_some hk
      simpa using this
    have h4o := jsIncludes_gpt4o_of_mini model hp
    have hkey : estimateCostKey model = some ("gpt-4o", 0.005) := by
      unfold estimateCostKey costPer1kTokens
      exact List.find?_cons_of_pos _ h4o
    rw [hkey] at hk
    simp at hk

/-- Witness for C10 at the model id "openai/gpt-4o-mini": it is billed at the
"gpt-4o" rate. -/
theorem claim_C10_mini_rate_shadowed_witness :
    (jsIncludes "openai/gpt-4o-mini" "gpt-4o-mini" = true →
      estimateCost "openai/gpt-4o-mini" 1500 = ((1500 : ℚ) / 1000) * 0.005) ∧
    estimateCostKey "openai/gpt-4o-mini" ≠ some ("gpt-4o-mini", 0.0002) :=
  claim_C10_mini_rate_shadowed "openai/gpt-4o-mini" 1500

/-- Claim C6 (the code as it runs): with every attempt answered HTTP 429 and
`retry-after: 7`, fetchWithRetry backs off 7 s before each of its three
retries (honoring the header), but the RateLimitError built after the
4th attempt is thrown inside the try block, swallowed by the catch, and the
call ultimately fails with a NetworkError that only wraps the rate-limit
message as its cause — not with a RateLimit-kind error. -/
theorem claim_C6_429_exhaustion_result :
    fetchWithRetry (fun _ => FetchOutcome.resp 429 (some 7)) 3 =
      ( FetchResult.failed (JsError.network
          "Failed after 4 attempts: Rate limit exceeded"
          (some (AttemptError.rateLimit "Rate limit exceeded" (some 7))))
      , [7000, 7000, 7000] ) := by
  rfl

/-- Claim C7: queryModel is total — for every backend outcome it returns a
ModelResponse whose model field is the queried id; a thrown backend error is
materialised as a `{model, error}` slot; and the plain fan-out is exactly the
slot-per-model vector of queryModel results, so one model's failure stays in
its own slot and never propagates. -/
theorem claim_C7_queryModel_never_throws (backend : Backend) (modelId : String)
    (messages : List Message) :
    (queryModel backend modelId messages).model = modelId ∧
    (∀ msg, (backend modelId messages).result = Except.error msg →
      queryModel backend modelId messages =
        { model := modelId, content := none, error := some msg
          citations := none, meta := none }) ∧
    ∀ settleOrder modelIds,
      queryMultipleModels backend settleOrder modelIds messages none =
        modelIds.map (fun m => queryModel backend m messages) := by
  refine ⟨?_, ?_, ?_⟩
  · cases hres : (backend modelId messages).result with
    | ok r => simp [queryModel, hres]
    | error msg => simp [queryModel, hres]
  · intro msg h
    simp [queryModel, h]
  · intro settleOrder modelIds
    rfl

/-- Witness for C7 at a concrete failing backend. -/
theorem claim_C7_queryModel_never_throws_witness :
    (queryModel failingBackend "m" []).model = "m" ∧
    (∀ msg, (failingBackend "m" []).result = Except.error msg →
      queryModel failingBackend "m" [] =
        { model := "m", content := none, error := some msg
          citations := none, meta := none }) ∧
    ∀ settleOrder modelIds,
      queryMultipleModels failingBackend settleOrder modelIds [] none =
        modelIds.map (fun m => queryModel failingBackend m []) :=
  claim_C7_queryModel_never_throws failingBackend "m" []

/-- Claim C9 (the code as it runs): querying through queryWithConsensus
sends every model the council system prompt (`config.system || ''`) — the
round-1 slot of the overriding model echoes "COUNCIL" — although
config.ts getSystemPrompt resolves that model to its override "OVERRIDE".
The per-model override is never consulted by the query paths. -/
theorem claim_C9_override_never_used :
    (queryWithConsensus echoSystemBackend (fun _ _ => 0) [] "ping"
        overrideConfig).rounds =
      [[{ model := "m", content := some "COUNCIL", error := none
          citations := none, meta := none }]] ∧
    getSystemPrompt (ModelConfig.obj "m" (some "OVERRIDE"))
      overrideConfig.system = "OVERRIDE" := by
  constructor
  · rfl
  · rfl

/-- A filterMap whose function is total on the list preserves length and
maps the k-th element to a value related to it. -/
theorem filterMap_total_spec {β γ : Type} (P : β → γ → Prop) (dB : β) (dG : γ)
    (l : List β) (f : β → Option γ)
    (h : ∀ x ∈ l, ∃ y, f x = some y ∧ P x y) :
    (l.filterMap f).length = l.length ∧
      ∀ k, k < l.length → P (l.getD k dB) ((l.filterMap f).getD k dG) := by
  induction l with
  | nil => simp
  | cons x xs ih =>
    obtain ⟨y, hy, hPy⟩ := h x (by simp)
    have ihh := ih (fun z hz => h z (by simp [hz]))
    have hfm : (x :: xs).filterMap f = y :: xs.filterMap f := by
      simp [List.filterMap_cons, hy]
    rw [hfm]
    refine ⟨by simp [ihh.1], ?_⟩
    intro k hk
    cases k with
    | zero => simpa using hPy
    | succ k =>
      have := ihh.2 k (by simpa using hk)
      simpa using this

/-- getD on List.range is the index itself when in range. -/
theorem range_getD {n k : Nat} (h : k < n) : (List.range n).getD k 0 = k := by
  rw [List.getD_eq_getElem _ _ (by simpa using h)]
  simp

/-- getD through a map, in range. -/
theorem getD_map_lt {α β : Type} (f : α → β) (l : List α) (dA : α) (dB : β)
    (k : Nat) (h : k < l.length) : (l.map f).getD k dB = f (l.getD k dA) := by
  rw [List.getD_eq_getElem _ _ (by simpa using h), List.getD_eq_getElem _ _ h]
  simp

/-- getD out of range yields the default. -/
theorem getD_of_le {α : Type} (l : List α) (d : α) (k : Nat) (h : l.length ≤ k) :
    l.getD k d = d := by
  simp [List.getD_eq_getElem?_getD, List.getElem?_eq_none h]

/-- The model field of a queryModel result is always the queried id. -/
theorem queryModel_model (backend : Backend) (modelId : String)
    (messages : List Message) : (queryModel backend modelId messages).model = modelId := by
  cases hres : (backend modelId messages).result with
  | ok r => simp [queryModel, hres]
  | error msg => simp [queryModel, hres]

/-- In the fan-out's promise vector, slot j is the queryModel result for
model j. -/
theorem fanout_getD (backend : Backend) (modelIds : List String)
    (messages : List Message) (j : Nat) (hj : j < modelIds.length) :
    (modelIds.map (fun modelId => queryModel backend modelId messages)).getD j
        defaultResponse =
      queryModel backend (modelIds.getD j "") messages :=
  getD_map_lt _ _ "" _ j hj

/-- Nodup lists have injective in-range getD. -/
theorem nodup_getD_ne (l : List String) (hnd : l.Nodup) (i j : Nat)
    (hi : i < l.length) (hj : j < l.length) (hne : i ≠ j) :
    l.getD i "" ≠ l.getD j "" := by
  rw [List.getD_eq_getElem _ _ hi, List.getD_eq_getElem _ _ hj]
  intro he
  exact hne (by
    have := List.Nodup.getElem_inj_iff hnd |>.mp he
    exact this)

/-- With pairwise-distinct model ids, the by-model lookup over the completed
results returns exactly the response of the asked slot. -/
theorem find_results_eq (resps : List ModelResponse) (mids : List String)
    (hmodel : ∀ j, j < mids.length →
      (resps.getD j defaultResponse).model = mids.getD j "")
    (hnd : mids.Nodup) :
    ∀ completed : List Nat, completed.Nodup → (∀ j ∈ completed, j < mids.length) →
      ∀ i ∈ completed,
        (completed.map (fun j => resps.getD j defaultResponse)).find?
            (fun r => r.model == mids.getD i "") =
          some (resps.getD i defaultResponse) := by
  intro completed
  induction completed with
  | nil => intro _ _ i hi; simp at hi
  | cons j rest ih =>
    intro hcnd hclt i hi
    by_cases hji : j = i
    · subst hji
      have hpred : ((resps.getD j defaultResponse).model == mids.getD j "") = true := by
        rw [hmodel j (hclt j (by simp))]
        simp
      simp only [List.map_cons]
      exact List.find?_cons_of_pos _ hpred
    · have hine : i ∈ rest := by
        rcases List.mem_cons.mp hi with h | h
        · exact absurd h.symm hji
        · exact h
      have hne : (resps.getD j defaultResponse).model ≠ mids.getD i "" := by
        rw [hmodel j (hclt j (by simp))]
        exact nodup_getD_ne mids hnd j i (hclt j (by simp)) (hclt i hi) hji
      simp only [List.map_cons]
      have hstep : List.find? (fun r => r.model == mids.getD i "")
            (resps.getD j defaultResponse ::
              List.map (fun j => resps.getD j defaultResponse) rest) =
          List.find? (fun r => r.model == mids.getD i "")
            (List.map (fun j => resps.getD j defaultResponse) rest) :=
        List.find?_cons_of_neg _ (by simpa using hne)
      rw [hstep]
      exact ih hcnd.of_cons (fun z hz => hclt z (List.mem_cons_of_mem j hz)) i hine

/-- Shape of the first-N aggregate, with no distinctness assumption: the
output is full length and slot i carries model id i (settled slots are
looked up by that very id; unsettled slots are sentinel slots built from
it). -/
theorem getFirstNResponses_shape (resps : List ModelResponse) (mids : List String)
    (n : Nat) (settleOrder : List Nat)
    (hmodel : ∀ j, j < mids.length →
      (resps.getD j defaultResponse).model = mids.getD j "") :
    (getFirstNResponses resps mids n settleOrder).length = mids.length ∧
    ∀ i, i < mids.length →
      ((getFirstNResponses resps mids n settleOrder).getD i
        defaultResponse).model = mids.getD i "" := by
  have key := filterMap_total_spec
    (fun i r => r.model = mids.getD i "") 0 defaultResponse
    (List.range mids.length)
    (fun i =>
      if i ∈ settleOrder.take n then
        ((settleOrder.take n).map (fun j => resps.getD j defaultResponse)).find?
          (fun r => r.model == mids.getD i "")
      else some (sentinelSlot (mids.getD i "")))
    (by
      intro i hi
      have hilen : i < mids.length := List.mem_range.mp hi
      show ∃ y, (if i ∈ settleOrder.take n then
          ((settleOrder.take n).map (fun j => resps.getD j defaultResponse)).find?
            (fun r => r.model == mids.getD i "")
        else some (sentinelSlot (mids.getD i ""))) = some y ∧
          y.model = mids.getD i ""
      by_cases hic : i ∈ settleOrder.take n
      · rw [if_pos hic]
        have hmem : resps.getD i defaultResponse ∈
            (settleOrder.take n).map (fun j => resps.getD j defaultResponse) :=
          List.mem_map_of_mem _ hic
        have hpred : ((resps.getD i defaultResponse).model == mids.getD i "") = true := by
          rw [hmodel i hilen]; simp
        have hsome : (((settleOrder.take n).map
              (fun j => resps.getD j defaultResponse)).find?
            (fun r => r.model == mids.getD i "")).isSome :=
          List.find?_isSome.mpr ⟨resps.getD i defaultResponse, hmem, hpred⟩
        obtain ⟨r, hr⟩ := Option.isSome_iff_exists.mp hsome
        refine ⟨r, hr, ?_⟩
        have := List.find?_some hr
        exact eq_of_beq this
      · rw [if_neg hic]
        exact ⟨_, rfl, rfl⟩)
  constructor
  · have h1 := key.1
    simpa [getFirstNResponses] using h1
  · intro i hilen
    have h2 := key.2 i (by simpa using hilen)
    rw [range_getD hilen] at h2
    simpa [getFirstNResponses] using h2

/-- Length and order preservation of the fan-out, for every first-N setting
and completion order. -/
theorem queryMultipleModels_shape (backend : Backend) (settleOrder : List Nat)
    (mids : List String) (messages : List Message) (firstN : Option Nat) :
    (queryMultipleModels backend settleOrder mids messages firstN).length = mids.length ∧
    ∀ i, i < mids.length →
      ((queryMultipleModels backend settleOrder mids messages firstN).getD i
        defaultResponse).model = mids.getD i "" := by
  have hplain : ∀ j, j < mids.length →
      ((mids.map (fun m => queryModel backend m messages)).getD j
        defaultResponse).model = mids.getD j "" := by
    intro j hj
    rw [fanout_getD backend mids messages j hj]
    exact queryModel_model backend _ messages
  cases firstN with
  | none => exact ⟨by simp [queryMultipleModels], by
      intro i hi
      simpa [queryMultipleModels] using hplain i hi⟩
  | some n =>
    by_cases hcond : n ≠ 0 ∧ n < mids.length
    · have := getFirstNResponses_shape
        (mids.map (fun m => queryModel backend m messages)) mids n settleOrder hplain
      constructor
      · simpa [queryMultipleModels, hcond] using this.1
      · intro i hi
        have h2 := this.2 i hi
        simpa [queryMultipleModels, hcond] using h2
    · constructor
      · simp [queryMultipleModels, hcond]
      · intro i hi
        simpa [queryMultipleModels, hcond] using hplain i hi

/-- A consensus step preserves length and per-slot model ids. -/
theorem consensusStep_shape (backend : Backend) (mids : List String)
    (initialPrompt systemPrompt : String) (prev : List ModelResponse)
    (hprev : ∀ i, i < mids.length →
      (prev.getD i defaultResponse).model = mids.getD i "") :
    (consensusStep backend mids initialPrompt systemPrompt prev).length = mids.length ∧
    ∀ i, i < mids.length →
      ((consensusStep backend mids initialPrompt systemPrompt prev).getD i
        defaultResponse).model = mids.getD i "" := by
  constructor
  · simp [consensusStep]
  · intro i hi
    have hlen : i < mids.enum.length := by simpa using hi
    have hstep : (consensusStep backend mids initialPrompt systemPrompt prev).getD i
        defaultResponse =
        (fun p : Nat × String =>
          let previousResponse := prev.getD p.1 defaultResponse
          if jsTruthyStr previousResponse.error then previousResponse
          else
            queryModel backend p.2
              (consensusMessages systemPrompt initialPrompt previousResponse p.2 prev))
          (i, mids.getD i "") := by
      unfold consensusStep
      rw [List.getD_eq_getElem _ _ (by simpa using hi)]
      rw [List.getElem_map]
      rw [List.getElem_enum]
      rw [List.getD_eq_getElem _ _ hi]
    rw [hstep]
    show (if jsTruthyStr (prev.getD i defaultResponse).error = true
        then prev.getD i defaultResponse
        else queryModel backend (mids.getD i "")
          (consensusMessages systemPrompt initialPrompt
            (prev.getD i defaultResponse) (mids.getD i "") prev)).model =
      mids.getD i ""
    by_cases herr : jsTruthyStr ((prev.getD i defaultResponse).error) = true
    · rw [if_pos herr]
      exact hprev i hi
    · rw [if_neg herr]
      exact queryModel_model backend _ _

/-- Every round of the consensus continuation keeps length and per-slot
model ids, given the starting round does. -/
theorem consensusRoundsFrom_shape (backend : Backend) (mids : List String)
    (initialPrompt systemPrompt : String) :
    ∀ (n : Nat) (prev : List ModelResponse),
      (∀ i, i < mids.length → (prev.getD i defaultResponse).model = mids.getD i "") →
      ∀ round ∈ consensusRoundsFrom backend mids initialPrompt systemPrompt n prev,
        round.length = mids.length ∧
        ∀ i, i < mids.length →
          (round.getD i defaultResponse).model = mids.getD i "" := by
  intro n
  induction n with
  | zero => intro prev _ round hr; simp [consensusRoundsFrom] at hr
  | succ n ih =>
    intro prev hprev round hr
    have hstep := consensusStep_shape backend mids initialPrompt systemPrompt prev hprev
    rcases List.mem_cons.mp hr with h | h
    · subst h; exact hstep
    · exact ih _ hstep.2 round h

/-- Every stored round of runConsensusRounds keeps length and per-slot
model ids, and the transcript holds exactly `rounds` rounds (when at least
one round is requested). -/
theorem runConsensusRounds_shape (backend : Backend) (settleOrder : List Nat)
    (mids : List String) (initialPrompt systemPrompt : String)
    (rounds : Nat) (firstN : Option Nat) :
    (∀ round ∈ runConsensusRounds backend settleOrder mids initialPrompt
        systemPrompt rounds firstN,
      round.length = mids.length ∧
      ∀ i, i < mids.length →
        (round.getD i defaultResponse).model = mids.getD i "") ∧
    (1 ≤ rounds →
      (runConsensusRounds backend settleOrder mids initialPrompt systemPrompt
        rounds firstN).length = rounds) := by
  have hq := queryMultipleModels_shape backend settleOrder mids
    (initialMessages systemPrompt initialPrompt) firstN
  constructor
  · intro round hr
    rcases List.mem_cons.mp hr with h | h
    · subst h; exact hq
    · exact consensusRoundsFrom_shape backend mids initialPrompt systemPrompt _ _
        hq.2 round h
  · intro hge
    have hlen : ∀ (n : Nat) (prev : List ModelResponse),
        (consensusRoundsFrom backend mids initialPrompt systemPrompt n prev).length = n := by
      intro n
      induction n with
      | zero => intro prev; simp [consensusRoundsFrom]
      | succ n ihn => intro prev; simp [consensusRoundsFrom, ihn]
    unfold runConsensusRounds
    simp only [List.length_cons, hlen]
    omega

/-- Consecutive rounds of the consensus continuation are related by the
consensus step. -/
theorem consensusRoundsFrom_chain (backend : Backend) (mids : List String)
    (initialPrompt systemPrompt : String) :
    ∀ (n : Nat) (prev : List ModelResponse) (k : Nat),
      k + 1 < (prev :: consensusRoundsFrom backend mids initialPrompt systemPrompt
        n prev).length →
      (prev :: consensusRoundsFrom backend mids initialPrompt systemPrompt n
        prev).getD (k + 1) [] =
        consensusStep backend mids initialPrompt systemPrompt
          ((prev :: consensusRoundsFrom backend mids initialPrompt systemPrompt n
            prev).getD k []) := by
  intro n
  induction n with
  | zero => intro prev k hk; simp [consensusRoundsFrom] at hk
  | succ n ih =>
    intro prev k hk
    cases k with
    | zero => simp [consensusRoundsFrom]
    | succ k =>
      have hk2 : k + 1 < ((consensusStep backend mids initialPrompt systemPrompt
          prev) :: consensusRoundsFrom backend mids initialPrompt systemPrompt n
            (consensusStep backend mids initialPrompt systemPrompt prev)).length := by
        simpa [consensusRoundsFrom] using hk
      have := ih (consensusStep backend mids initialPrompt systemPrompt prev) k hk2
      simpa [consensusRoundsFrom] using this

/-- An errored slot passes through a consensus step unchanged (for any
backend: its value does not depend on the network oracle). -/
theorem consensusStep_error_slot (backend : Backend) (mids : List String)
    (initialPrompt systemPrompt : String) (prev : List ModelResponse) (i : Nat)
    (hplen : prev.length = mids.length)
    (h : jsTruthyStr ((prev.getD i defaultResponse).error) = true) :
    (consensusStep backend mids initialPrompt systemPrompt prev).getD i
        defaultResponse = prev.getD i defaultResponse := by
  by_cases hi : i < mids.length
  · have hstep : (consensusStep backend mids initialPrompt systemPrompt prev).getD i
        defaultResponse =
        (fun p : Nat × String =>
          let previousResponse := prev.getD p.1 defaultResponse
          if jsTruthyStr previousResponse.error then previousResponse
          else
            queryModel backend p.2
              (consensusMessages systemPrompt initialPrompt previousResponse p.2 prev))
          (i, mids.getD i "") := by
      unfold consensusStep
      rw [List.getD_eq_getElem _ _ (by simpa using hi)]
      rw [List.getElem_map]
      rw [List.getElem_enum]
      rw [List.getD_eq_getElem _ _ hi]
    rw [hstep]
    show (if jsTruthyStr (prev.getD i defaultResponse).error = true
        then prev.getD i defaultResponse
        else queryModel backend (mids.getD i "")
          (consensusMessages systemPrompt initialPrompt
            (prev.getD i defaultResponse) (mids.getD i "") prev)) =
      prev.getD i defaultResponse
    rw [if_pos h]
  · have h1 : prev.getD i defaultResponse = defaultResponse :=
      getD_of_le _ _ _ (by omega)
    rw [h1] at h
    simp [jsTruthyStr, defaultResponse] at h

/-- Claim C3: in every consensus run, a slot that is an error response in
round k is returned verbatim (the whole slot, hence the same error string)
as round k+1's slot, for every network oracle — the carried slot's value
does not depend on the backend, reflecting that no request is issued for
it. -/
theorem claim_C3_error_carry_through (backend : Backend) (settleOrder : List Nat)
    (modelIds : List String) (initialPrompt systemPrompt : String)
    (rounds : Nat) (firstN : Option Nat) (k i : Nat)
    (hk : k + 1 < (runConsensusRounds backend settleOrder modelIds initialPrompt
      systemPrompt rounds firstN).length)
    (herr : jsTruthyStr ((((runConsensusRounds backend settleOrder modelIds
      initialPrompt systemPrompt rounds firstN).getD k []).getD i
        defaultResponse).error) = true) :
    ((runConsensusRounds backend settleOrder modelIds initialPrompt systemPrompt
        rounds firstN).getD (k + 1) []).getD i defaultResponse =
      ((runConsensusRounds backend settleOrder modelIds initialPrompt systemPrompt
        rounds firstN).getD k []).getD i defaultResponse := by
  have hrfl : runConsensusRounds backend settleOrder modelIds initialPrompt
      systemPrompt rounds firstN =
      queryMultipleModels backend settleOrder modelIds
        (initialMessages systemPrompt initialPrompt) firstN ::
      consensusRoundsFrom backend modelIds initialPrompt systemPrompt (rounds - 1)
        (queryMultipleModels backend settleOrder modelIds
          (initialMessages systemPrompt initialPrompt) firstN) := rfl
  have hklt : k < (runConsensusRounds backend settleOrder modelIds initialPrompt
      systemPrompt rounds firstN).length := by omega
  have hmem : (runConsensusRounds backend settleOrder modelIds initialPrompt
      systemPrompt rounds firstN).getD k [] ∈
      runConsensusRounds backend settleOrder modelIds initialPrompt systemPrompt
        rounds firstN := by
    rw [List.getD_eq_getElem _ _ hklt]
    exact List.getElem_mem _
  have hlen := ((runConsensusRounds_shape backend settleOrder modelIds initialPrompt
      systemPrompt rounds firstN).1 _ hmem).1
  have hchain := consensusRoundsFrom_chain backend modelIds initialPrompt systemPrompt
      (rounds - 1)
      (queryMultipleModels backend settleOrder modelIds
        (initialMessages systemPrompt initialPrompt) firstN) k (hrfl ▸ hk)
  rw [hrfl] at herr hlen ⊢
  rw [hchain]
  exact consensusStep_error_slot backend modelIds initialPrompt systemPrompt _ i
    hlen herr

/-- Witness for C3: two models, two rounds, model "b" fails in round 1 with
"boom"; its round-2 slot is the identical slot. -/
theorem claim_C3_error_carry_through_witness :
    ((runConsensusRounds c3Backend [] ["a", "b"] "q" "sys" 2 none).getD 1
        []).getD 1 defaultResponse =
      ((runConsensusRounds c3Backend [] ["a", "b"] "q" "sys" 2 none).getD 0
        []).getD 1 defaultResponse :=
  claim_C3_error_carry_through c3Backend [] ["a", "b"] "q" "sys" 2 none 0 1
    (by decide) (by decide)

/-- Without a truthy time limit, the stored rounds of queryWithConsensus are
exactly the rounds of runConsensusRounds. -/
theorem queryWithConsensus_rounds_noLimit (backend : Backend)
    (pricing : String → Nat → ℚ) (settleOrder : List Nat) (prompt : String)
    (config : CouncilConfig)
    (h : jsTruthyQ (councilTimeLimit config) = false) :
    (queryWithConsensus backend pricing settleOrder prompt config).rounds =
      runConsensusRounds backend settleOrder (config.models.map getModelId) prompt
        (jsOrStr config.system "") (councilRounds config) (councilFirstN config) := by
  unfold queryWithConsensus
  simp [h]

/-- Claim C1 (amended): the fan-out vector always has one slot per input
model carrying that model's id, in input order, for every completion order
and first-N setting; every round of runConsensusRounds does too, and the
transcript holds exactly `rounds` rounds; and the rounds stored in the
ConsensusResponse of queryWithConsensus inherit this whenever no time limit
is configured (with a truthy time limit the stored rounds are filtered
subsets and may be shorter — see the counterexample). -/
theorem claim_C1_length_and_order :
    (∀ (backend : Backend) (settleOrder : List Nat) (modelIds : List String)
        (messages : List Message) (firstN : Option Nat),
      (queryMultipleModels backend settleOrder modelIds messages firstN).length =
        modelIds.length ∧
      ∀ i, i < modelIds.length →
        ((queryMultipleModels backend settleOrder modelIds messages
          firstN).getD i defaultResponse).model = modelIds.getD i "") ∧
    (∀ (backend : Backend) (settleOrder : List Nat) (modelIds : List String)
        (initialPrompt systemPrompt : String) (rounds : Nat) (firstN : Option Nat),
      (1 ≤ rounds →
        (runConsensusRounds backend settleOrder modelIds initialPrompt systemPrompt
          rounds firstN).length = rounds) ∧
      ∀ round ∈ runConsensusRounds backend settleOrder modelIds initialPrompt
          systemPrompt rounds firstN,
        round.length = modelIds.length ∧
        ∀ i, i < modelIds.length →
          (round.getD i defaultResponse).model = modelIds.getD i "") ∧
    (∀ (backend : Backend) (pricing : String → Nat → ℚ) (settleOrder : List Nat)
        (prompt : String) (config : CouncilConfig),
      jsTruthyQ (councilTimeLimit config) = false →
      ∀ round ∈ (queryWithConsensus backend pricing settleOrder prompt config).rounds,
        round.length = config.models.length ∧
        ∀ i, i < config.models.length →
          (round.getD i defaultResponse).model =
            getModelId (config.models.getD i (ModelConfig.str ""))) := by
  refine ⟨fun backend settleOrder modelIds messages firstN =>
      queryMultipleModels_shape backend settleOrder modelIds messages firstN,
    fun backend settleOrder modelIds initialPrompt systemPrompt rounds firstN =>
      ⟨(runConsensusRounds_shape backend settleOrder modelIds initialPrompt
          systemPrompt rounds firstN).2,
        (runConsensusRounds_shape backend settleOrder modelIds initialPrompt
          systemPrompt rounds firstN).1⟩,
    ?_⟩
  intro backend pricing settleOrder prompt config h round hr
  rw [queryWithConsensus_rounds_noLimit backend pricing settleOrder prompt config h]
    at hr
  have hshape := (runConsensusRounds_shape backend settleOrder
    (config.models.map getModelId) prompt (jsOrStr config.system "")
    (councilRounds config) (councilFirstN config)).1 round hr
  refine ⟨by simpa using hshape.1, ?_⟩
  intro i hi
  have hm := hshape.2 i (by simpa using hi)
  rw [getD_map_lt getModelId config.models (ModelConfig.str "") "" i hi] at hm
  exact hm


/-- Counterexample to C1 as stated: with a 1-second time limit configured
and a model answering in 2000 ms, the single stored round of the
ConsensusResponse returned by queryWithConsensus is empty — not of length
|M| = 1. -/
theorem claim_C1_counterexample :
    ((queryWithConsensus c1Backend (fun _ _ => 0) [] "q" c1Config).rounds.getD 0
        []).length ≠ c1Config.models.length := by
  norm_num [queryWithConsensus, councilRounds, c1Config, councilFirstN,
    councilTimeLimit, councilSingle, jsTruthyQ, jsOrStr, runConsensusRounds,
    consensusRoundsFrom, queryMultipleModels, initialMessages, queryModel,
    c1Backend, filterByTimeLimit, latencyTruthy, jsTruthyStr, calculateMetadata,
    metaStep]

/-- Claim C2: with firstN = n < |M| (and distinct model ids, the settlement
order being a permutation-prefix of the request indices), the race returns a
full-length vector in input model order in which the first n settlers' slots
hold their actual settled responses (success or failure alike — queryModel
materialises failures, so settlement counts both) and every other slot holds
the sentinel failure; the output depends only on the first n settlers. -/
theorem claim_C2_firstN_exact (backend : Backend) (modelIds : List String)
    (messages : List Message) (n : Nat) (settleOrder : List Nat)
    (hnd : modelIds.Nodup)
    (hn0 : n ≠ 0) (hnlt : n < modelIds.length)
    (hson : settleOrder.Nodup)
    (hsolt : ∀ j ∈ settleOrder, j < modelIds.length)
    (hsolen : n ≤ settleOrder.length) :
    (queryMultipleModels backend settleOrder modelIds messages (some n)).length =
      modelIds.length ∧
    (settleOrder.take n).length = n ∧
    (∀ i, i < modelIds.length → i ∈ settleOrder.take n →
      (queryMultipleModels backend settleOrder modelIds messages (some n)).getD i
          defaultResponse = queryModel backend (modelIds.getD i "") messages) ∧
    (∀ i, i < modelIds.length → i ∉ settleOrder.take n →
      (queryMultipleModels backend settleOrder modelIds messages (some n)).getD i
          defaultResponse = sentinelSlot (modelIds.getD i "")) := by
  have hqm : queryMultipleModels backend settleOrder modelIds messages (some n) =
      getFirstNResponses (modelIds.map (fun m => queryModel backend m messages))
        modelIds n settleOrder := by
    simp [queryMultipleModels, hn0, hnlt]
  have hmodel : ∀ j, j < modelIds.length →
      ((modelIds.map (fun m => queryModel backend m messages)).getD j
        defaultResponse).model = modelIds.getD j "" := by
    intro j hj
    rw [fanout_getD backend modelIds messages j hj]
    exact queryModel_model backend _ _
  have htknd : (settleOrder.take n).Nodup :=
    (List.take_sublist n settleOrder).nodup hson
  have htklt : ∀ j ∈ settleOrder.take n, j < modelIds.length :=
    fun j hj => hsolt j (List.mem_of_mem_take hj)
  have key := filterMap_total_spec
    (fun i r => r = (if i ∈ settleOrder.take n then
        (modelIds.map (fun m => queryModel backend m messages)).getD i
          defaultResponse
      else sentinelSlot (modelIds.getD i ""))) 0 defaultResponse
    (List.range modelIds.length)
    (fun i =>
      if i ∈ settleOrder.take n then
        ((settleOrder.take n).map (fun j =>
          (modelIds.map (fun m => queryModel backend m messages)).getD j
            defaultResponse)).find?
          (fun r => r.model == modelIds.getD i "")
      else some (sentinelSlot (modelIds.getD i "")))
    (by
      intro i hi
      have hilen : i < modelIds.length := List.mem_range.mp hi
      show ∃ y, (if i ∈ settleOrder.take n then
          ((settleOrder.take n).map (fun j =>
            (modelIds.map (fun m => queryModel backend m messages)).getD j
              defaultResponse)).find?
            (fun r => r.model == modelIds.getD i "")
        else some (sentinelSlot (modelIds.getD i ""))) = some y ∧
          y = (if i ∈ settleOrder.take n then
            (modelIds.map (fun m => queryModel backend m messages)).getD i
              defaultResponse
          else sentinelSlot (modelIds.getD i ""))
      by_cases hic : i ∈ settleOrder.take n
      · rw [if_pos hic, if_pos hic]
        refine ⟨_, find_results_eq
          (modelIds.map (fun m => queryModel backend m messages)) modelIds
          hmodel hnd (settleOrder.take n) htknd htklt i hic, rfl⟩
      · rw [if_neg hic, if_neg hic]
        exact ⟨_, rfl, rfl⟩)
  have hlen : (queryMultipleModels backend settleOrder modelIds messages
      (some n)).length = modelIds.length := by
    rw [hqm]
    have h1 := key.1
    simpa [getFirstNResponses] using h1
  have hslot : ∀ i, i < modelIds.length →
      (queryMultipleModels backend settleOrder modelIds messages (some n)).getD i
        defaultResponse = (if i ∈ settleOrder.take n then
          (modelIds.map (fun m => queryModel backend m messages)).getD i
            defaultResponse
        else sentinelSlot (modelIds.getD i "")) := by
    intro i hi
    have h2 := key.2 i (by simpa using hi)
    rw [range_getD hi] at h2
    rw [hqm]
    simpa [getFirstNResponses] using h2
  refine ⟨hlen, ?_, ?_, ?_⟩
  · simp [List.length_take, Nat.min_eq_left hsolen]
  · intro i hi hic
    rw [hslot i hi, if_pos hic]
    exact fanout_getD backend modelIds messages i hi
  · intro i hi hic
    rw [hslot i hi, if_neg hic]

/-- Witness for C2: three models, firstN = 2, settlement order c, a, b — the
slots of c and a hold their settled responses, b holds the sentinel, in
input order. -/
theorem claim_C2_firstN_exact_witness :
    (queryMultipleModels c2Backend [2, 0, 1] ["a", "b", "c"] [] (some 2)).length =
      (["a", "b", "c"] : List String).length ∧
    (([2, 0, 1] : List Nat).take 2).length = 2 ∧
    (∀ i, i < (["a", "b", "c"] : List String).length →
      i ∈ ([2, 0, 1] : List Nat).take 2 →
      (queryMultipleModels c2Backend [2, 0, 1] ["a", "b", "c"] [] (some 2)).getD i
          defaultResponse =
        queryModel c2Backend ((["a", "b", "c"] : List String).getD i "") []) ∧
    (∀ i, i < (["a", "b", "c"] : List String).length →
      i ∉ ([2, 0, 1] : List Nat).take 2 →
      (queryMultipleModels c2Backend [2, 0, 1] ["a", "b", "c"] [] (some 2)).getD i
          defaultResponse =
        sentinelSlot ((["a", "b", "c"] : List String).getD i "")) :=
  claim_C2_firstN_exact c2Backend ["a", "b", "c"] [] 2 [2, 0, 1]
    (by decide) (by decide) (by decide) (by decide) (by decide) (by decide)

/-- The peer-appending fold of buildConsensusPrompt equals the accumulator
followed by the spec-worded peer sections, when the target model id occurs
exactly at position i and no error is the (truthy-ambiguous) empty string. -/
theorem buildFold_eq_specPeerSections (target : String) :
    ∀ (l : List ModelResponse) (acc : String) (i j : Nat),
      (∀ k, k < l.length → ((l.getD k defaultResponse).model = target ↔ j + k = i)) →
      (∀ r ∈ l, r.error ≠ some "") →
      l.foldl (fun prompt response =>
        if response.model ≠ target ∧ jsTruthyStr response.error = false then
          prompt ++ ("**" ++ response.model ++ "**:\n" ++
            response.content.getD "undefined" ++ "\n\n")
        else prompt) acc = acc ++ specPeerSections i j l := by
  intro l
  induction l with
  | nil => intro acc i j _ _; simp [specPeerSections]
  | cons r rest ih =>
    intro acc i j hidx herr
    have hhead : r.model = target ↔ j = i := by
      have := hidx 0 (by simp)
      simpa using this
    have htail : ∀ k, k < rest.length →
        ((rest.getD k defaultResponse).model = target ↔ (j + 1) + k = i) := by
      intro k hk
      have := hidx (k + 1) (by simpa using hk)
      have harith : j + (k + 1) = (j + 1) + k := by omega
      rw [harith] at this
      simpa using this
    have herrh : r.error ≠ some "" := herr r (by simp)
    have herrt : ∀ x ∈ rest, x.error ≠ some "" := fun x hx => herr x (by simp [hx])
    have herriff : jsTruthyStr r.error = false ↔ r.error = none := by
      cases he : r.error with
      | none => simp [jsTruthyStr]
      | some s =>
        rw [he] at herrh
        have hs : s ≠ "" := by
          intro hcon
          exact herrh (by rw [hcon])
        simp [jsTruthyStr, hs]
    have hcondiff : (r.model ≠ target ∧ jsTruthyStr r.error = false) ↔
        (j ≠ i ∧ r.error = none) := by
      constructor
      · intro ⟨h1, h2⟩
        exact ⟨fun hji => h1 (hhead.mpr hji), herriff.mp h2⟩
      · intro ⟨h1, h2⟩
        exact ⟨fun hm => h1 (hhead.mp hm), herriff.mpr h2⟩
    have hspec : specPeerSections i j (r :: rest) =
        (if j ≠ i ∧ r.error = none then
          "**" ++ r.model ++ "**:\n" ++ r.content.getD "undefined" ++ "\n\n"
        else "") ++ specPeerSections i (j + 1) rest := rfl
    rw [List.foldl_cons, hspec]
    by_cases hc : j ≠ i ∧ r.error = none
    · rw [if_pos (hcondiff.mpr hc), if_pos hc]
      rw [ih _ i (j + 1) htail herrt]
      rw [String.append_assoc]
    · rw [if_neg (fun hcc => hc (hcondiff.mp hcc)), if_neg hc]
      rw [ih _ i (j + 1) htail herrt]
      simp

/-- Claim C5: buildConsensusPrompt is a pure function of its inputs (two
runs agree by definition, and the unused ownResponse argument is universally
quantified), and when the current model id occurs exactly at position i and
no peer carries an empty-string error, it produces exactly the claimed
string: fixed header, one "**model**:\n content \n\n" section per non-error
peer j ≠ i in vector order, fixed footer — the spec-worded
specConsensusPrompt. -/
theorem claim_C5_consensus_prompt_format (responses : List ModelResponse)
    (i : Nat) (ownResponse : ModelResponse)
    (hi : i < responses.length)
    (huniq : ∀ j, j < responses.length → j ≠ i →
      (responses.getD j defaultResponse).model ≠
        (responses.getD i defaultResponse).model)
    (herr : ∀ r ∈ responses, r.error ≠ some "") :
    buildConsensusPrompt ((responses.getD i defaultResponse).model) ownResponse
        responses = specConsensusPrompt i responses := by
  have hidx : ∀ k, k < responses.length →
      ((responses.getD k defaultResponse).model =
        (responses.getD i defaultResponse).model ↔ 0 + k = i) := by
    intro k hk
    constructor
    · intro he
      by_contra hne
      exact huniq k hk (by omega) he
    · intro hke
      rw [show k = i from by omega]
  show (responses.foldl (fun prompt response =>
      if response.model ≠ (responses.getD i defaultResponse).model ∧
          jsTruthyStr response.error = false then
        prompt ++ ("**" ++ response.model ++ "**:\n" ++
          response.content.getD "undefined" ++ "\n\n")
      else prompt)
      ("Consider your peers" ++ apos ++
        " views and revise your response if needed:\n\n")) ++
    "Based on these perspectives, would you like to revise or expand your answer?" =
    specConsensusPrompt i responses
  rw [buildFold_eq_specPeerSections _ responses _ i 0 hidx herr]
  unfold specConsensusPrompt
  rw [String.append_assoc]

/-- Witness for C5 at a concrete council of three responses with the middle
model as the current one (one peer errored). -/
theorem claim_C5_consensus_prompt_format_witness :
    buildConsensusPrompt ((c5Responses.getD 1 defaultResponse).model)
        defaultResponse c5Responses = specConsensusPrompt 1 c5Responses :=
  claim_C5_consensus_prompt_format c5Responses 1 defaultResponse (by decide)
    (by decide) (by decide)

/-- Claim C4 (amended): the time-limit filter keeps a response with falsy
error and truthy measured latency iff that latency is within the budget, and
always keeps error responses and responses without usable latency; in
queryWithConsensus it is applied to every round only after ALL rounds have
completed (each stored round is the filter of the corresponding raw round of
the full run, so downstream rounds build their revision context from the
unfiltered predecessor), and a dropped slot is removed from the stored round
rather than replaced by an error slot. -/
theorem claim_C4_time_filter_amended :
    (∀ (responses : List ModelResponse) (timeLimitMs : ℚ) (r : ModelResponse),
      r ∈ filterByTimeLimit responses timeLimitMs ↔
        r ∈ responses ∧
          (jsTruthyStr r.error = true ∨ latencyTruthy r.meta = none ∨
            ∃ l, latencyTruthy r.meta = some l ∧ (l : ℚ) ≤ timeLimitMs)) ∧
    (∀ (backend : Backend) (pricing : String → Nat → ℚ) (settleOrder : List Nat)
        (prompt : String) (config : CouncilConfig),
      jsTruthyQ (councilTimeLimit config) = true →
      (queryWithConsensus backend pricing settleOrder prompt config).rounds =
        (runConsensusRounds backend settleOrder (config.models.map getModelId)
          prompt (jsOrStr config.system "") (councilRounds config)
          (councilFirstN config)).map
          (fun round =>
            filterByTimeLimit round ((councilTimeLimit config).getD 0 * 1000))) := by
  constructor
  · intro responses timeLimitMs r
    rw [filterByTimeLimit, List.mem_filter]
    constructor
    · intro ⟨hmem, hp⟩
      refine ⟨hmem, ?_⟩
      by_cases he : jsTruthyStr r.error = true
      · exact Or.inl he
      · rw [if_pos (by simpa using he)] at hp
        cases hl : latencyTruthy r.meta with
        | none => exact Or.inr (Or.inl rfl)
        | some l =>
          simp only [hl] at hp
          exact Or.inr (Or.inr ⟨l, rfl, of_decide_eq_true hp⟩)
    · intro ⟨hmem, hd⟩
      refine ⟨hmem, ?_⟩
      by_cases he : jsTruthyStr r.error = true
      · rw [if_neg (by simp [he])]
      · rw [if_pos (by simpa using he)]
        rcases hd with hd | hd | ⟨l, hl, hle⟩
        · exact absurd hd he
        · rw [hd]
        · rw [hl]
          exact decide_eq_true hle
  · intro backend pricing settleOrder prompt config h
    unfold queryWithConsensus
    simp [h]

set_option maxRecDepth 8192 in
/-- Counterexample to C4 as stated: two models, two rounds, 0.5 s limit,
"b" answering in 900 ms.  The stored rounds are [[a-slot], [a-slot]] — the
dropped "b" slot is removed, no "Filtered: exceeded time limit" error slot
exists, the stored round is shorter than |M|, and the round-2 "a" slot
echoes "SAW_B": its revision prompt was built from the UNFILTERED round 1,
which still contained the slow peer "b". -/
theorem claim_C4_counterexample :
    ((queryWithConsensus c4Backend (fun _ _ => 0) [] "q" c4Config).rounds.map
        (fun round => round.map (fun r => (r.model, r.content, r.error)))) =
      [[("a", some "NO_B", none)], [("a", some "SAW_B", none)]] ∧
    ((queryWithConsensus c4Backend (fun _ _ => 0) [] "q" c4Config).rounds.getD 0
        []).length ≠ c4Config.models.length := by
  constructor <;>
  norm_num +decide [queryWithConsensus, councilRounds, c4Config, councilFirstN,
    councilTimeLimit, councilSingle, jsTruthyQ, jsOrStr, runConsensusRounds,
    consensusRoundsFrom, consensusStep, consensusMessages, buildConsensusPrompt,
    queryMultipleModels, initialMessages, queryModel, c4Backend, filterByTimeLimit,
    latencyTruthy, jsTruthyStr, calculateMetadata, metaStep, jsIncludes, apos,
    estimateCost, estimateCostKey, costPer1kTokens]

/-- The imperative accumulation of calculateMetadata equals per-field sums
over the responses. -/
theorem metaFold_eq (pricing : String → Nat → ℚ) (l : List ModelResponse) :
    ∀ acc : MetaAccum,
      l.foldl (metaStep pricing) acc =
        { totalCost := acc.totalCost + (l.map (specCostContribution pricing)).sum
          totalTokens := acc.totalTokens + (l.map specTokensOf).sum
          totalLatency := acc.totalLatency + (l.map specLatencyOf).sum
          responseCount := acc.responseCount + (l.map specMetaCount).sum } := by
  induction l with
  | nil => intro acc; simp
  | cons r rest ih =>
    intro acc
    rw [List.foldl_cons, ih]
    cases hm : r.meta with
    | none =>
      simp [metaStep, hm, specCostContribution, specTokensOf, specLatencyOf,
        specMetaCount]
    | some m =>
      simp only [metaStep, hm, specCostContribution, specTokensOf, specLatencyOf,
        specMetaCount, List.map_cons, List.sum_cons, MetaAccum.mk.injEq]
      refine ⟨by ring, by omega, by omega, by omega⟩

/-- Claim C8 (amended): the ConsensusResponse metadata is computed from the
stored (filtered) rounds only — the synthesis response is NOT included —
with totalCost the sum over round responses of the truthy estimatedCost,
else the pricing estimator on a truthy totalTokens, else 0; totalTokens the
sum of `meta.totalTokens || 0`; averageLatency the exact rational mean of
`meta.latencyMs || 0` over responses carrying meta (not an integer); and
modelCount the length of rounds[0]. -/
theorem claim_C8_metadata_formula :
    (∀ (pricing : String → Nat → ℚ) (allRounds : List (List ModelResponse)),
      calculateMetadata pricing allRounds =
        { totalCost := (allRounds.flatten.map (specCostContribution pricing)).sum
          totalTokens := (allRounds.flatten.map specTokensOf).sum
          averageLatency :=
            if 0 < (allRounds.flatten.map specMetaCount).sum then
              ((allRounds.flatten.map specLatencyOf).sum : ℚ) /
                ((allRounds.flatten.map specMetaCount).sum : ℚ)
            else 0
          modelCount := (allRounds.headD []).length }) ∧
    (∀ (backend : Backend) (pricing : String → Nat → ℚ) (settleOrder : List Nat)
        (prompt : String) (config : CouncilConfig),
      (queryWithConsensus backend pricing settleOrder prompt config).metadata =
        calculateMetadata pricing
          (queryWithConsensus backend pricing settleOrder prompt config).rounds) := by
  constructor
  · intro pricing allRounds
    unfold calculateMetadata
    rw [metaFold_eq pricing allRounds.flatten ⟨0, 0, 0, 0⟩]
    simp
  · intro backend pricing settleOrder prompt config
    rfl

set_option maxRecDepth 8192 in
/-- Counterexample to C8 as stated: with synthesis enabled, every response
(synthesis included) carrying an estimated cost, the metadata totalCost of
the returned ConsensusResponse differs from the claim formula, which also
sums the synthesis response's cost. -/
theorem claim_C8_counterexample :
    (queryWithConsensus c8Backend (fun _ _ => 0) [] "q" c8Config).metadata.totalCost ≠
      specClaimTotalCost (fun _ _ => 0)
        (queryWithConsensus c8Backend (fun _ _ => 0) [] "q" c8Config) := by
  norm_num +decide [queryWithConsensus, councilRounds, c8Config, councilFirstN,
    councilTimeLimit, councilSingle, jsTruthyQ, jsOrStr, runConsensusRounds,
    consensusRoundsFrom, queryMultipleModels, initialMessages, queryModel,
    c8Backend, filterByTimeLimit, latencyTruthy, jsTruthyStr, calculateMetadata,
    metaStep, jsIncludes, apos, estimateCost, estimateCostKey, costPer1kTokens,
    synthesizeResponses, chooseSynthesizer, synthesisRoundSection, getModelId,
    specClaimTotalCost]
